import Mathlib

/-!
# Todo service (`main.go`): request handlers over a document collection

A shallow embedding of the four request handlers of `main.go`
(`fetchTodos`, `createTodo`, `deleteTodo`, `updateTodo`) together with the
library functions they call.

* Go strings are byte sequences; they are modelled as lists of byte values.
* Each handler receives the collection `db.C(collectionName)` as an explicit
  interface plus the current store state, and returns the responses written
  with `rnd.JSON`, the store calls it made, and the resulting store state.
* The `mgo` driver and the document store behind it are modelled by
  `mgoCollection`, following the documented behaviour of `gopkg.in/mgo.v2`.
-/

namespace Todo

/-! ## Go strings, `strings.TrimSpace`, `encoding/hex` -/

/-- A Go `string`: an immutable sequence of bytes (each value below 256). -/
abbrev GoString := List Nat

/-- The bytes of a string literal of the source (its UTF-8 encoding). -/
def lit (s : String) : GoString :=
  s.data.flatMap fun c => (String.utf8EncodeChar c).map UInt8.toNat

/-- Single-byte white space: tab, line feed, vertical tab, form feed, carriage return, space
(the `asciiSpace` table of package `strings`). -/
def asciiSpace (a : Nat) : Bool :=
  a == 0x09 || a == 0x0A || a == 0x0B || a == 0x0C || a == 0x0D || a == 0x20

/-- Two-byte UTF-8 encodings of white space: U+0085 (NEL) and U+00A0 (NBSP). -/
def space2 (a b : Nat) : Bool :=
  a == 0xC2 && (b == 0x85 || b == 0xA0)

/-- Three-byte UTF-8 encodings of white space: U+1680, U+2000 to U+200A, U+2028, U+2029,
U+202F, U+205F and U+3000 (the rest of the `White_Space` table used by `unicode.IsSpace`). -/
def space3 (a b c : Nat) : Bool :=
  (a == 0xE1 && b == 0x9A && c == 0x80) ||
  (a == 0xE2 && b == 0x80 && ((0x80 ≤ c && c ≤ 0x8A) || c == 0xA8 || c == 0xA9 || c == 0xAF)) ||
  (a == 0xE2 && b == 0x81 && c == 0x9F) ||
  (a == 0xE3 && b == 0x80 && c == 0x80)

/-- Removes from the front of `s` every encoded rune accepted by one of the three tests.
With the tests `asciiSpace`, `space2`, `space3` this is `strings.TrimLeftFunc(s, unicode.IsSpace)`:
the first rune of a string is a white-space rune exactly when the string starts with that
rune's UTF-8 encoding. -/
def trimRunes (p1 : Nat → Bool) (p2 : Nat → Nat → Bool) (p3 : Nat → Nat → Nat → Bool) :
    GoString → GoString
  | a :: b :: c :: r =>
    if p1 a then trimRunes p1 p2 p3 (b :: c :: r)
    else if p2 a b then trimRunes p1 p2 p3 (c :: r)
    else if p3 a b c then trimRunes p1 p2 p3 r
    else a :: b :: c :: r
  | [a, b] =>
    if p1 a then trimRunes p1 p2 p3 [b]
    else if p2 a b then []
    else [a, b]
  | [a] => if p1 a then [] else [a]
  | [] => []

/-- Leading white space removed. -/
def TrimLeft (s : GoString) : GoString :=
  trimRunes asciiSpace space2 space3 s

/-- Trailing white space removed: the last rune of a string is a white-space rune exactly
when the string ends with that rune's encoding, so the encodings are matched backwards on
the reversed string. -/
def TrimRight (s : GoString) : GoString :=
  (trimRunes asciiSpace (fun a b => space2 b a) (fun a b c => space3 c b a) s.reverse).reverse

/-- Go `strings.TrimSpace`: `s` with all leading and trailing white space removed, as
defined by Unicode. -/
def TrimSpace (s : GoString) : GoString :=
  TrimRight (TrimLeft s)

/-- Go `fromHexChar` of `encoding/hex`: the value of a hexadecimal digit byte. -/
def fromHexChar (c : Nat) : Option Nat :=
  if 48 ≤ c ∧ c ≤ 57 then some (c - 48)
  else if 97 ≤ c ∧ c ≤ 102 then some (c - 97 + 10)
  else if 65 ≤ c ∧ c ≤ 70 then some (c - 65 + 10)
  else none

/-- Go `hex.DecodeString`: the bytes written as pairs of hexadecimal digits, `none` for the
error results (an odd length or a byte that is no hexadecimal digit). -/
def DecodeString : GoString → Option (List Nat)
  | [] => some []
  | [_] => none
  | p :: q :: r =>
    match fromHexChar p, fromHexChar q with
    | some a, some b =>
      match DecodeString r with
      | some d => some ((a * 16 + b) :: d)
      | none => none
    | _, _ => none

/-- The digits of `hex.EncodeToString`. -/
def hextable : GoString := lit "0123456789abcdef"

/-- Go `hex.EncodeToString`: two lower-case digits per byte. -/
def EncodeToString (src : List Nat) : GoString :=
  src.flatMap fun v => [hextable.getD (v / 16) 0, hextable.getD (v % 16) 0]

/-! ## Package `bson`: object identifiers -/

/-- Type `bson.ObjectId`, declared `type ObjectId string`: the raw bytes of an identifier. -/
abbrev ObjectId := GoString

/-- Function `bson.IsObjectIdHex`: whether `s` is the hex form of an identifier. -/
def IsObjectIdHex (s : GoString) : Bool :=
  if s.length ≠ 24 then false
  else (DecodeString s).isSome

/-- Function `bson.ObjectIdHex`: the identifier written in hex as `s`; `none` stands for the
panic on an invalid input. -/
def ObjectIdHex (s : GoString) : Option ObjectId :=
  match DecodeString s with
  | some d => if d.length ≠ 12 then none else some d
  | none => none

/-- Method `ObjectId.Hex`: the hex form of an identifier. -/
def Hex (id : ObjectId) : GoString :=
  EncodeToString id

/-! ## Data model (`main.go`, lines 30 to 44) -/

/-- A `time.Time`, as the milliseconds since the Unix epoch that a BSON datetime holds. -/
abbrev Time := Int

/-- The zero `time.Time` (1 January of year 1, 00:00 UTC). -/
def zeroTime : Time := -62135596800000

/-- Struct `todoModel`: the stored representation. The fields `Title` and `Completed` have
the identifier type `bson.ObjectId`; the BSON names are `_id` (with `omitempty`), `title`,
`successful` and `createdAt`. -/
structure todoModel where
  ID : ObjectId
  Title : ObjectId
  Completed : ObjectId
  DateCreated : Time
  deriving DecidableEq

/-- Struct `todo`: the wire representation, with JSON names `id`, `title`, `completed`,
`created_at`. -/
structure todo where
  ID : GoString
  Title : GoString
  Completed : GoString
  CreatedAt : Time
  deriving DecidableEq

/-! ## Errors, BSON values and the collection interface -/

/-- A Go `error` value, by origin. -/
inductive GoError
  /-- An error returned by `json.Decoder.Decode`. -/
  | decode (msg : String)
  /-- The `mgo.ErrNotFound` error. -/
  | notFound
  /-- The error "ObjectIDs must be exactly 12 bytes long (got n)" of `bson.Marshal`. -/
  | objectIdLength (got : Nat)
  /-- A duplicate key error of the store (E11000). -/
  | duplicateKey
  /-- Any other failure of the store or of the connection to it. -/
  | other (msg : String)
  deriving DecidableEq

/-- A BSON element value, restricted to the kinds this program writes. -/
inductive Value
  /-- Kind 0x07, a 12-byte object identifier. -/
  | objectId (b : ObjectId)
  /-- Kind 0x02, a string. -/
  | str (s : GoString)
  /-- Kind 0x09, a datetime. -/
  | time (t : Time)
  deriving DecidableEq

/-- A `bson.M` map, also used for a stored document: field names with their values. -/
abbrev M := List (String × Value)

/-- The collection `db.C(collectionName)` as the handlers use it, over a store state `σ`.
Every call may fail with an error; the writing calls return the state they leave. -/
structure Collection (σ : Type) where
  /-- The call `Find(bson.M{}).All(&todos)`: the decoded documents, or an error. -/
  FindAll : σ → Except GoError (List todoModel)
  /-- The call `Insert(tm)`. -/
  Insert : todoModel → σ → Option GoError × σ
  /-- The call `RemoveId(id)`. -/
  RemoveId : ObjectId → σ → Option GoError × σ
  /-- The call `Update(selector, update)`. -/
  Update : M → M → σ → Option GoError × σ

/-- A call made on the collection. -/
inductive StoreCall
  | FindAll
  | Insert (tm : todoModel)
  | RemoveId (id : ObjectId)
  | Update (selector : M) (update : M)
  deriving DecidableEq

/-! ## Responses -/

/-- A value placed in a `renderer.M` response map. -/
inductive Payload
  /-- A string. -/
  | str (s : GoString)
  /-- An `error` value. -/
  | err (e : GoError)
  /-- A slice of `todo`. -/
  | todos (l : List todo)
  deriving DecidableEq

/-- The value handed to `rnd.JSON` as the body. -/
inductive Body
  /-- A `renderer.M` map with the given keys. -/
  | m (fields : List (String × Payload))
  /-- An `error` value itself, outside any map. -/
  | raw (e : GoError)
  deriving DecidableEq

/-- One call `rnd.JSON(w, status, body)`. -/
structure Response where
  status : Nat
  body : Body
  deriving DecidableEq

/-- Status `http.StatusProcessing`. -/
def StatusProcessing : Nat := 102
/-- Status `http.StatusCreated`. -/
def StatusCreated : Nat := 201
/-- Status `http.StatusAccepted`. -/
def StatusAccepted : Nat := 202
/-- Status `http.StatusBadRequest`. -/
def StatusBadRequest : Nat := 400

/-- What one call of `rnd.JSON` puts on the wire: the status given to `WriteHeader`, and the
body when `json.Marshal` accepted it. -/
structure Sent where
  status : Nat
  body : Option Body
  deriving DecidableEq

/-- The first instant of year 0 (UTC), in milliseconds since the Unix epoch. -/
def yearZero : Int := -62167219200000

/-- The first instant of year 10000 (UTC), in milliseconds since the Unix epoch. -/
def yearTenThousand : Int := 253402300800000

/-- Whether `time.Time.MarshalJSON` accepts `t`: the year must lie in 0..9999. The year is
read in the location of the value: the zero time is in UTC, any other stored time was built
by `time.Unix` in the local zone, whose offset at `t` is `zone t` milliseconds. -/
def timeMarshals (zone : Time → Int) (t : Time) : Bool :=
  t == zeroTime || (decide (yearZero ≤ t + zone t) && decide (t + zone t < yearTenThousand))

/-- Whether `json.Marshal` accepts a value of a response map: a string always, an error
value as `encodes` tells, a slice of `todo` when every `created_at` is accepted. -/
def payloadMarshals (zone : Time → Int) (encodes : GoError → Bool) : Payload → Bool
  | .str _ => true
  | .err e => encodes e
  | .todos l => l.all fun t => timeMarshals zone t.CreatedAt

/-- Whether `json.Marshal` accepts a response body. -/
def bodyMarshals (zone : Time → Int) (encodes : GoError → Bool) : Body → Bool
  | .m fields => fields.all fun kv => payloadMarshals zone encodes kv.2
  | .raw e => encodes e

/-- Method `rnd.JSON(w, status, v)` of the renderer: it writes the header with `status`, then
encodes `v`; when the encoding fails it returns the error without writing a body. The
handlers of `main.go` drop that error. -/
def JSON (zone : Time → Int) (encodes : GoError → Bool) (r : Response) : Sent :=
  { status := r.status,
    body := if bodyMarshals zone encodes r.body then some r.body else none }

/-- What running a handler leaves behind: the `rnd.JSON` calls in order (what each of them
sends is given by `JSON`), the store calls in order, the store state, and whether the
handler panicked. -/
structure Result (σ : Type) where
  writes : List Response
  calls : List StoreCall
  db : σ
  panicked : Bool := false

/-! ## The `mgo` collection: driver and document store

The store holds the documents of the collection in insertion order. The driver encodes
what it sends with `bson.Marshal` and decodes what it reads with `bson.Unmarshal`. -/

/-- The element `bson.Marshal` writes for a value of type `bson.ObjectId` under `name`: an
identifier that is not exactly 12 bytes long makes `Marshal` fail with
"ObjectIDs must be exactly 12 bytes long". -/
def marshalObjectId (name : String) (v : ObjectId) : Except GoError (String × Value) :=
  if v.length ≠ 12 then .error (.objectIdLength v.length)
  else .ok (name, .objectId v)

/-- The document `bson.Marshal` produces for a `todoModel`, field by field in declaration
order: `_id` is left out when empty (`omitempty`), `title` and `successful` are identifier
elements, `createdAt` is a datetime. -/
def marshalTodoModel (tm : todoModel) : Except GoError M :=
  match (if tm.ID = [] then .ok [] else (marshalObjectId "_id" tm.ID).map fun f => [f]) with
  | .error e => .error e
  | .ok idField =>
    match marshalObjectId "title" tm.Title with
    | .error e => .error e
    | .ok title =>
      match marshalObjectId "successful" tm.Completed with
      | .error e => .error e
      | .ok completed =>
        .ok (idField ++ [title, completed, ("createdAt", .time tm.DateCreated)])

/-- The first identifier element of a `bson.M` that is not 12 bytes long, which makes
`bson.Marshal` fail. -/
def marshalM : M → Option GoError
  | [] => none
  | (_, .objectId b) :: r => if b.length ≠ 12 then some (.objectIdLength b.length) else marshalM r
  | _ :: r => marshalM r

/-- The bytes `bson.Unmarshal` can store in a struct field of string kind (here
`bson.ObjectId`): those of an identifier or string element; a datetime does not fit. -/
def stringField : Value → Option GoString
  | .objectId b => some b
  | .str s => some s
  | .time _ => none

/-- The time `bson.Unmarshal` can store in a `time.Time` field: that of a datetime element;
an identifier or string does not fit. -/
def timeField : Value → Option Time
  | .time t => some t
  | _ => none

/-- One element read by `bson.Unmarshal` into a `todoModel`: the element is stored in the
field whose struct tag is its name when its kind fits, and is skipped otherwise. -/
def setField (tm : todoModel) (kv : String × Value) : todoModel :=
  if kv.1 = "_id" then
    match stringField kv.2 with
    | some b => { tm with ID := b }
    | none => tm
  else if kv.1 = "title" then
    match stringField kv.2 with
    | some b => { tm with Title := b }
    | none => tm
  else if kv.1 = "successful" then
    match stringField kv.2 with
    | some b => { tm with Completed := b }
    | none => tm
  else if kv.1 = "createdAt" then
    match timeField kv.2 with
    | some t => { tm with DateCreated := t }
    | none => tm
  else tm

/-- The `todoModel` that `bson.Unmarshal` reads from a document: starting from the zero
value, the elements are stored one after the other in document order, so a field absent
from the document keeps its zero value and of a repeated name the last fitting element
stays. -/
def unmarshalTodoModel (d : M) : todoModel :=
  d.foldl setField { ID := [], Title := [], Completed := [], DateCreated := zeroTime }

/-- Whether a document has every field of the selector with the same value. -/
def matchesSelector (selector : M) (d : M) : Bool :=
  selector.all fun kv => d.lookup kv.1 == some kv.2

/-- The call `Find(bson.M{}).All(&todos)`: every document, decoded, in store order. -/
def mgoFindAll (docs : List M) : Except GoError (List todoModel) :=
  .ok (docs.map unmarshalTodoModel)

/-- The call `Insert(tm)`: fails when the document cannot be encoded or when a stored
document has the same `_id`; otherwise the document is added at the end. (A document
without `_id`, which `createTodo` never sends, is stored as it is.) -/
def mgoInsert (tm : todoModel) (docs : List M) : Option GoError × List M :=
  match marshalTodoModel tm with
  | .error e => (some e, docs)
  | .ok d =>
    match d.lookup "_id" with
    | some v =>
      if docs.any (fun x => x.lookup "_id" == some v) then (some .duplicateKey, docs)
      else (none, docs ++ [d])
    | none => (none, docs ++ [d])

/-- The first document accepted by `p` removed. -/
def removeFirst (p : M → Bool) : List M → Option (List M)
  | [] => none
  | d :: r =>
    if p d then some r
    else
      match removeFirst p r with
      | some r1 => some (d :: r1)
      | none => none

/-- The call `RemoveId(id)`, that is `Remove(bson.D{{"_id", id}})`: removes the first
document with that `_id`, and returns `ErrNotFound` when there is none. -/
def mgoRemoveId (id : ObjectId) (docs : List M) : Option GoError × List M :=
  match marshalM [("_id", .objectId id)] with
  | some e => (some e, docs)
  | none =>
    match removeFirst (matchesSelector [("_id", .objectId id)]) docs with
    | some docs1 => (none, docs1)
    | none => (some .notFound, docs)

/-- The document that replaces `old` under an update document without update operators:
the fields of `update`, after the `_id` of `old`, which an update cannot change. -/
def replacement (old update : M) : M :=
  (match old.lookup "_id" with
   | some v => [("_id", v)]
   | none => []) ++ update.filter fun kv => kv.1 != "_id"

/-- The first document accepted by `p` replaced by `f` of it. -/
def replaceFirst (p : M → Bool) (f : M → M) : List M → Option (List M)
  | [] => none
  | d :: r =>
    if p d then some (f d :: r)
    else
      match replaceFirst p f r with
      | some r1 => some (d :: r1)
      | none => none

/-- The call `Update(selector, update)` for an update document of plain `field: value`
pairs (no `$` operators), as `updateTodo` passes it: the store replaces the first matching
document by the update document, keeping its `_id`; an `_id` in the update that differs
from the stored one is refused, and `ErrNotFound` is returned when nothing matches. -/
def mgoUpdate (selector update : M) (docs : List M) : Option GoError × List M :=
  match marshalM selector with
  | some e => (some e, docs)
  | none =>
    match marshalM update with
    | some e => (some e, docs)
    | none =>
      match docs.find? (matchesSelector selector) with
      | none => (some .notFound, docs)
      | some old =>
        if update.lookup "_id" != none && update.lookup "_id" != old.lookup "_id" then
          (some (.other "the _id field is immutable"), docs)
        else
          match replaceFirst (matchesSelector selector) (fun d => replacement d update) docs with
          | some docs1 => (none, docs1)
          | none => (some .notFound, docs)

/-- The collection `db.C(collectionName)` of a reachable store, over its documents. -/
def mgoCollection : Collection (List M) :=
  { FindAll := mgoFindAll, Insert := mgoInsert, RemoveId := mgoRemoveId, Update := mgoUpdate }

/-! ## The handlers (`main.go`, lines 59 to 178) -/

variable {σ : Type}

/-- Handler `fetchTodos` (lines 59 to 83). -/
def fetchTodos (c : Collection σ) (s : σ) : Result σ :=
  match c.FindAll s with
  | .error err =>
    { writes := [⟨StatusProcessing, .m [("message", .str (lit "Failed to fetch todo")),
                                        ("error", .err err)]⟩],
      calls := [.FindAll], db := s }
  | .ok todos =>
    let todoList : List todo := todos.foldl
      (fun todoList t => todoList ++
        [{ ID := Hex t.ID, Title := t.Title, Completed := t.Completed,
           CreatedAt := t.DateCreated }]) []
    { writes := [⟨StatusAccepted, .m [("data", .todos todoList)]⟩],
      calls := [.FindAll], db := s }

/-- Handler `createTodo` (lines 85 to 118). `body` is the result of decoding the request
body into a `todo`; `newId` is what `bson.NewObjectId()` returns and `now` what `time.Now()`
returns. -/
def createTodo (newId : ObjectId) (now : Time) (body : Except GoError todo)
    (c : Collection σ) (s : σ) : Result σ :=
  match body with
  | .error err => { writes := [⟨StatusProcessing, .raw err⟩], calls := [], db := s }
  | .ok t =>
    if t.Title = [] then
      { writes := [⟨StatusBadRequest, .m [("message", .str (lit "Title is required"))]⟩],
        calls := [], db := s }
    else
      let tm : todoModel :=
        { ID := newId, Title := t.Title, Completed := [], DateCreated := now }
      match c.Insert tm s with
      | (some err, s1) =>
        { writes := [⟨StatusProcessing, .m [("message", .str (lit "Failed to save Todo")),
                                            ("error", .err err)]⟩],
          calls := [.Insert tm], db := s1 }
      | (none, s1) =>
        { writes := [⟨StatusCreated, .m [("message", .str (lit "Todo created successfully")),
                                         ("todo_id", .str (Hex tm.ID))]⟩],
          calls := [.Insert tm], db := s1 }

/-- Handler `deleteTodo` (lines 120 to 141). `param` is `chi.URLParam(r, "id")`. -/
def deleteTodo (param : GoString) (c : Collection σ) (s : σ) : Result σ :=
  let id := TrimSpace param
  if !IsObjectIdHex id then
    { writes := [⟨StatusBadRequest, .m [("message", .str (lit "Invalid id format"))]⟩],
      calls := [], db := s }
  else
    match ObjectIdHex id with
    | none => { writes := [], calls := [], db := s, panicked := true }
    | some oid =>
      match c.RemoveId oid s with
      | (some err, s1) =>
        { writes := [⟨StatusProcessing,
                      .m [("message", .str (lit "Failed to delete the todo")),
                          ("error", .err err)]⟩],
          calls := [.RemoveId oid], db := s1 }
      | (none, s1) =>
        { writes := [⟨StatusAccepted,
                      .m [("message", .str (lit "todo deleted successfully"))]⟩],
          calls := [.RemoveId oid], db := s1 }

/-- Handler `updateTodo` (lines 143 to 178). `param` is `chi.URLParam(r, "id")` and `body`
the result of decoding the request body into a `todo`. -/
def updateTodo (param : GoString) (body : Except GoError todo)
    (c : Collection σ) (s : σ) : Result σ :=
  let id := TrimSpace param
  if !IsObjectIdHex id then
    { writes := [⟨StatusBadRequest, .m [("message", .str (lit "Invalid ID format"))]⟩],
      calls := [], db := s }
  else
    match body with
    | .error err => { writes := [⟨StatusProcessing, .raw err⟩], calls := [], db := s }
    | .ok t =>
      if t.Title = [] then
        { writes := [⟨StatusBadRequest,
                      .m [("message", .str (lit "Title field is required"))]⟩],
          calls := [], db := s }
      else
        match ObjectIdHex id with
        | none => { writes := [], calls := [], db := s, panicked := true }
        | some oid =>
          let selector : M := [("_id", .objectId oid)]
          let update : M := [("title", .str t.Title), ("completed", .str t.Completed)]
          match c.Update selector update s with
          | (some err, s1) =>
            { writes := [⟨StatusProcessing, .m [("message", .str (lit "failed to Update")),
                                                ("error", .err err)]⟩],
              calls := [.Update selector update], db := s1 }
          | (none, s1) =>
            { writes := [], calls := [.Update selector update], db := s1 }

/-! ## Auxiliary definitions for the proofs -/

/-- Whether a string starts with an encoded rune accepted by one of the three tests. -/
def startsWithRune (p1 : Nat → Bool) (p2 : Nat → Nat → Bool) (p3 : Nat → Nat → Nat → Bool) :
    GoString → Bool
  | a :: b :: c :: _ => p1 a || p2 a b || p3 a b c
  | [a, b] => p1 a || p2 a b
  | [a] => p1 a
  | [] => false

/-- Whether `e` is the UTF-8 encoding of one white-space rune. -/
def isSpaceRune : GoString → Bool
  | [a] => asciiSpace a
  | [a, b] => space2 a b
  | [a, b, c] => space3 a b c
  | _ => false

/-- The wire form of a stored item, as the loop of `fetchTodos` builds it. -/
def toTodo (m : todoModel) : todo :=
  { ID := Hex m.ID, Title := m.Title, Completed := m.Completed, CreatedAt := m.DateCreated }

/-- The update document `updateTodo` passes for a decoded body `t`. -/
def updateDoc (t : todo) : M :=
  [("title", .str t.Title), ("completed", .str t.Completed)]

/-- Whether a stored document has the identifier `oid` as its `_id`. -/
def hasId (oid : ObjectId) (d : M) : Bool :=
  d.lookup "_id" == some (.objectId oid)

/-- The responses `deleteTodo` writes after the store call, by the error it returned. -/
def deleteResponses : Option GoError → List Response
  | none =>
    [⟨StatusAccepted, .m [("message", .str (lit "todo deleted successfully"))]⟩]
  | some err =>
    [⟨StatusProcessing, .m [("message", .str (lit "Failed to delete the todo")),
                            ("error", .err err)]⟩]

/-- The responses `updateTodo` writes after the store call, by the error it returned. -/
def updateResponses : Option GoError → List Response
  | none => []
  | some err =>
    [⟨StatusProcessing, .m [("message", .str (lit "failed to Update")), ("error", .err err)]⟩]

/-- A 24-digit hex identifier used in the examples. -/
def sampleHex : GoString := lit "0123456789abcdef01234567"

/-- The identifier that `sampleHex` denotes. -/
def sampleOid : ObjectId := [1, 35, 69, 103, 137, 171, 205, 239, 1, 35, 69, 103]

/-- A stored document with all four fields of a todo item. -/
def sampleDoc : M :=
  [("_id", .objectId sampleOid), ("title", .str (lit "old")),
   ("successful", .str (lit "false")), ("createdAt", .time 1000)]

/-- A stored document whose creation time is the first instant of year 10000. -/
def lateDoc : M :=
  [("_id", .objectId sampleOid), ("title", .str (lit "old")),
   ("successful", .str (lit "false")), ("createdAt", .time 253402300800000)]

/-- The local zone UTC. -/
def utc : Time → Int := fun _ => 0

/-- An encoder that accepts every error value. -/
def encodesAll : GoError → Bool := fun _ => true

/-- A decoded request body with title `x` and completed `true`. -/
def sampleBody : todo :=
  { ID := [], Title := lit "x", Completed := lit "true", CreatedAt := 0 }

/-! ## Lemmas on trimming -/

section trim
variable (p1 : Nat → Bool) (p2 : Nat → Nat → Bool) (p3 : Nat → Nat → Nat → Bool)

theorem trimRunes_idem (s : GoString) :
    trimRunes p1 p2 p3 (trimRunes p1 p2 p3 s) = trimRunes p1 p2 p3 s := by
  induction s using trimRunes.induct p1 p2 p3 with
  | case1 a b c r h ih => rw [trimRunes]; simp [h, ih]
  | case2 a b c r h1 h2 ih => rw [trimRunes]; simp [h1, h2, ih]
  | case3 a b c r h1 h2 h3 ih => rw [trimRunes]; simp [h1, h2, h3, ih]
  | case4 a b c r h1 h2 h3 => simp [trimRunes, h1, h2, h3]
  | case5 a b h ih => rw [trimRunes]; simp [h, ih]
  | case6 a b h1 h2 => simp [trimRunes, h1, h2]
  | case7 a b h1 h2 => simp [trimRunes, h1, h2]
  | case8 a h => simp [trimRunes, h]
  | case9 a h => simp [trimRunes, h]
  | case10 => simp [trimRunes]

theorem trimRunes_length_le (s : GoString) :
    (trimRunes p1 p2 p3 s).length ≤ s.length := by
  induction s using trimRunes.induct p1 p2 p3 with
  | case1 a b c r h ih => rw [trimRunes]; simp only [h, if_true]; simp at ih ⊢; omega
  | case2 a b c r h1 h2 ih => rw [trimRunes]; simp only [h1, h2, if_true, if_false]; simp at ih ⊢; omega
  | case3 a b c r h1 h2 h3 ih => rw [trimRunes]; simp only [h1, h2, h3, if_true, if_false]; simp at ih ⊢; omega
  | case4 a b c r h1 h2 h3 => simp [trimRunes, h1, h2, h3]
  | case5 a b h ih => rw [trimRunes]; simp only [h, if_true]; simp at ih ⊢; omega
  | case6 a b h1 h2 => simp [trimRunes, h1, h2]
  | case7 a b h1 h2 => simp [trimRunes, h1, h2]
  | case8 a h => simp [trimRunes, h]
  | case9 a h => simp [trimRunes, h]
  | case10 => simp [trimRunes]

theorem trimRunes_eq_self_iff (s : GoString) :
    trimRunes p1 p2 p3 s = s ↔ startsWithRune p1 p2 p3 s = false := by
  constructor
  · intro h
    have hlen : (trimRunes p1 p2 p3 s).length = s.length := by rw [h]
    match s, hlen with
    | [], _ => rfl
    | [a], hlen =>
      by_cases h1 : p1 a = true
      · simp [trimRunes, h1] at hlen
      · simpa [startsWithRune] using h1
    | [a, b], hlen =>
      by_cases h1 : p1 a = true
      · have := trimRunes_length_le p1 p2 p3 [b]
        rw [trimRunes] at hlen; simp only [h1, if_true] at hlen; simp at this hlen; omega
      · by_cases h2 : p2 a b = true
        · simp [trimRunes, h1, h2] at hlen
        · simp [startsWithRune, h1, h2]
    | a :: b :: c :: r, hlen =>
      by_cases h1 : p1 a = true
      · have := trimRunes_length_le p1 p2 p3 (b :: c :: r)
        rw [trimRunes] at hlen; simp only [h1, if_true] at hlen; simp at this hlen; omega
      · by_cases h2 : p2 a b = true
        · have := trimRunes_length_le p1 p2 p3 (c :: r)
          rw [trimRunes] at hlen; simp only [h1, h2, if_true, if_false] at hlen
          simp at this hlen; omega
        · by_cases h3 : p3 a b c = true
          · have := trimRunes_length_le p1 p2 p3 r
            rw [trimRunes] at hlen; simp only [h1, h2, h3, if_true, if_false] at hlen
            simp at this hlen; omega
          · simp [startsWithRune, h1, h2, h3]
  · intro h
    match s, h with
    | [], _ => simp [trimRunes]
    | [a], h => simp [startsWithRune] at h; simp [trimRunes, h]
    | [a, b], h => simp [startsWithRune] at h; simp [trimRunes, h]
    | a :: b :: c :: r, h => simp [startsWithRune] at h; simp [trimRunes, h]

theorem startsWithRune_append (u w : GoString) (h : startsWithRune p1 p2 p3 u = true) :
    startsWithRune p1 p2 p3 (u ++ w) = true := by
  match u, h with
  | [a], h =>
    simp [startsWithRune] at h
    match w with
    | [] => simp [startsWithRune, h]
    | [b] => simp [startsWithRune, h]
    | b :: c :: r => simp [startsWithRune, h]
  | [a, b], h =>
    match w with
    | [] => simpa using h
    | c :: r =>
      simp [startsWithRune] at h
      rcases h with h | h <;> simp [startsWithRune, h]
  | a :: b :: c :: r, h => simpa [startsWithRune] using h

theorem trimRunes_is_suffix (s : GoString) :
    ∃ w, s = w ++ trimRunes p1 p2 p3 s := by
  induction s using trimRunes.induct p1 p2 p3 with
  | case1 a b c r h ih =>
    obtain ⟨w, hw⟩ := ih
    refine ⟨a :: w, ?_⟩
    rw [trimRunes]; simp only [h, if_true]; simp [← hw]
  | case2 a b c r h1 h2 ih =>
    obtain ⟨w, hw⟩ := ih
    refine ⟨a :: b :: w, ?_⟩
    rw [trimRunes]; simp only [h1, h2, if_true, if_false]; simp [← hw]
  | case3 a b c r h1 h2 h3 ih =>
    obtain ⟨w, hw⟩ := ih
    refine ⟨a :: b :: c :: w, ?_⟩
    rw [trimRunes]; simp only [h1, h2, h3, if_true, if_false]; simp [← hw]
  | case4 a b c r h1 h2 h3 => exact ⟨[], by simp [trimRunes, h1, h2, h3]⟩
  | case5 a b h ih =>
    obtain ⟨w, hw⟩ := ih
    refine ⟨a :: w, ?_⟩
    rw [trimRunes]; simp only [h, if_true]; simp [← hw]
  | case6 a b h1 h2 => exact ⟨[a, b], by simp [trimRunes, h1, h2]⟩
  | case7 a b h1 h2 => exact ⟨[], by simp [trimRunes, h1, h2]⟩
  | case8 a h => exact ⟨[a], by simp [trimRunes, h]⟩
  | case9 a h => exact ⟨[], by simp [trimRunes, h]⟩
  | case10 => exact ⟨[], by simp [trimRunes]⟩

end trim

theorem TrimRight_is_leading (s : GoString) : ∃ w, s = TrimRight s ++ w := by
  obtain ⟨w, hw⟩ := trimRunes_is_suffix asciiSpace (fun a b => space2 b a)
    (fun a b c => space3 c b a) s.reverse
  refine ⟨w.reverse, ?_⟩
  have := congrArg List.reverse hw
  simpa [TrimRight] using this

theorem TrimSpace_idem (s : GoString) : TrimSpace (TrimSpace s) = TrimSpace s := by
  unfold TrimSpace
  have hL : TrimLeft (TrimRight (TrimLeft s)) = TrimRight (TrimLeft s) := by
    obtain ⟨w, hw⟩ := TrimRight_is_leading (TrimLeft s)
    have hfix : trimRunes asciiSpace space2 space3 (TrimLeft s) = TrimLeft s :=
      trimRunes_idem _ _ _ s
    rw [trimRunes_eq_self_iff] at hfix
    unfold TrimLeft at *
    rw [trimRunes_eq_self_iff]
    by_contra hne
    have hs := startsWithRune_append asciiSpace space2 space3 _ w (by simpa using hne)
    rw [← hw] at hs
    simp [hfix] at hs
  rw [hL]
  unfold TrimRight
  simp [trimRunes_idem]

/-! ## Lemmas on hexadecimal identifiers -/

theorem DecodeString_length (s : GoString) (d : List Nat) (h : DecodeString s = some d) :
    s.length = 2 * d.length := by
  induction s using DecodeString.induct generalizing d with
  | case1 => simp [DecodeString] at h; subst h; rfl
  | case2 x => simp [DecodeString] at h
  | case3 p q r a b ha hb d1 hd ih =>
    simp [DecodeString, ha, hb, hd] at h
    subst h
    have := ih d1 hd
    simp; omega
  | case4 p q r a b ha hb hd ih => simp [DecodeString, ha, hb, hd] at h
  | case5 p q r hx =>
    rw [DecodeString] at h
    split at h
    · rename_i a b ha hb; exact absurd hb (by simpa using hx a b ha)
    · simp at h

theorem DecodeString_hex (s : GoString) (d : List Nat) (h : DecodeString s = some d) :
    ∀ x ∈ s, (fromHexChar x).isSome = true := by
  induction s using DecodeString.induct generalizing d with
  | case1 => simp
  | case2 x => simp [DecodeString] at h
  | case3 p q r a b ha hb d1 hd ih =>
    intro x hx
    simp at hx
    rcases hx with hx | hx | hx
    · simp [hx, ha, hb]
    · simp [hx, ha, hb]
    · exact ih d1 hd x hx
  | case4 p q r a b ha hb hd ih => simp [DecodeString, ha, hb, hd] at h
  | case5 p q r hx =>
    rw [DecodeString] at h
    split at h
    · rename_i a b ha hb; exact absurd hb (by simpa using hx a b ha)
    · simp at h

theorem IsObjectIdHex_iff (s : GoString) :
    IsObjectIdHex s = true ↔ s.length = 24 ∧ ∃ d, DecodeString s = some d := by
  unfold IsObjectIdHex
  by_cases h : s.length = 24
  · simp [h, Option.isSome_iff_exists]
  · simp [h]

theorem ObjectIdHex_of_IsObjectIdHex (s : GoString) (h : IsObjectIdHex s = true) :
    ∃ oid, ObjectIdHex s = some oid ∧ oid.length = 12 := by
  obtain ⟨hl, d, hd⟩ := (IsObjectIdHex_iff s).1 h
  have := DecodeString_length s d hd
  refine ⟨d, ?_, by omega⟩
  have h12 : d.length = 12 := by omega
  simp [ObjectIdHex, hd, h12]

theorem hex_le (x : Nat) (h : (fromHexChar x).isSome = true) : 48 ≤ x ∧ x ≤ 102 := by
  unfold fromHexChar at h
  split at h
  · omega
  · split at h
    · omega
    · split at h
      · omega
      · simp at h

theorem startsWithRune_hex (x : Nat) (r : GoString) (h : (fromHexChar x).isSome = true) :
    startsWithRune asciiSpace space2 space3 (x :: r) = false := by
  have hx := hex_le x h
  have h1 : asciiSpace x = false := by
    simp [asciiSpace]; omega
  have h2 : ∀ b, space2 x b = false := by
    intro b; simp [space2]; omega
  have h3 : ∀ b c, space3 x b c = false := by
    intro b c; simp [space3]; omega
  match r with
  | [] => simp [startsWithRune, h1]
  | [b] => simp [startsWithRune, h1, h2]
  | b :: c :: r => simp [startsWithRune, h1, h2, h3]

theorem startsWithRune_rev_hex (x : Nat) (r : GoString) (h : (fromHexChar x).isSome = true) :
    startsWithRune asciiSpace (fun a b => space2 b a) (fun a b c => space3 c b a) (x :: r)
      = false := by
  have hx := hex_le x h
  have h1 : asciiSpace x = false := by
    simp [asciiSpace]; omega
  have h2 : ∀ b, space2 b x = false := by
    intro b; simp [space2]; omega
  have h3 : ∀ b c, space3 c b x = false := by
    intro b c; simp [space3]; omega
  match r with
  | [] => simp [startsWithRune, h1]
  | [b] => simp [startsWithRune, h1, h2]
  | b :: c :: r => simp [startsWithRune, h1, h2, h3]

theorem TrimSpace_of_hex (s : GoString) (h : ∀ x ∈ s, (fromHexChar x).isSome = true) :
    TrimSpace s = s := by
  have hL : TrimLeft s = s := by
    unfold TrimLeft
    rw [trimRunes_eq_self_iff]
    match s, h with
    | [], _ => rfl
    | x :: r, h => exact startsWithRune_hex x r (h x (by simp))
  unfold TrimSpace
  rw [hL]
  unfold TrimRight
  have hR : trimRunes asciiSpace (fun a b => space2 b a) (fun a b c => space3 c b a) s.reverse
      = s.reverse := by
    rw [trimRunes_eq_self_iff]
    have h2 : ∀ x ∈ s.reverse, (fromHexChar x).isSome = true := by
      intro x hx; exact h x (by simpa using hx)
    match hs : s.reverse, h2 with
    | [], _ => rfl
    | x :: r, h2 => exact startsWithRune_rev_hex x r (h2 x (by simp))
  rw [hR]; simp

theorem TrimSpace_of_IsObjectIdHex (s : GoString) (h : IsObjectIdHex s = true) :
    TrimSpace s = s := by
  obtain ⟨_, d, hd⟩ := (IsObjectIdHex_iff s).1 h
  exact TrimSpace_of_hex s (DecodeString_hex s d hd)

theorem foldl_append_singleton {α β : Type} (f : α → β) (l : List α) (acc : List β) :
    l.foldl (fun acc t => acc ++ [f t]) acc = acc ++ l.map f := by
  induction l generalizing acc with
  | nil => simp
  | cons a l ih => simp [ih]

/-! ## Lemmas on white space around an identifier -/

section steps
variable (p1 : Nat → Bool) (p2 : Nat → Nat → Bool) (p3 : Nat → Nat → Nat → Bool)

theorem trimRunes_step1 (a : Nat) (x : GoString) (h : p1 a = true) :
    trimRunes p1 p2 p3 (a :: x) = trimRunes p1 p2 p3 x := by
  match x with
  | [] => simp [trimRunes, h]
  | [b] => rw [trimRunes]; simp [h]
  | b :: c :: r => rw [trimRunes]; simp [h]

theorem trimRunes_step2 (a b : Nat) (x : GoString) (h1 : p1 a = false) (h2 : p2 a b = true) :
    trimRunes p1 p2 p3 (a :: b :: x) = trimRunes p1 p2 p3 x := by
  match x with
  | [] => simp [trimRunes, h1, h2]
  | c :: r => rw [trimRunes]; simp [h1, h2]

theorem trimRunes_step3 (a b c : Nat) (x : GoString) (h1 : p1 a = false) (h2 : p2 a b = false)
    (h3 : p3 a b c = true) :
    trimRunes p1 p2 p3 (a :: b :: c :: x) = trimRunes p1 p2 p3 x := by
  rw [trimRunes]; simp [h1, h2, h3]

end steps

theorem space2_not_ascii (a b : Nat) (h : space2 a b = true) :
    asciiSpace a = false ∧ asciiSpace b = false := by
  simp [space2] at h
  simp [asciiSpace]; omega

theorem space3_not_shorter (a b c : Nat) (h : space3 a b c = true) :
    asciiSpace a = false ∧ space2 a b = false ∧ asciiSpace c = false ∧ space2 b c = false := by
  simp [space3] at h
  simp [asciiSpace, space2]; omega

theorem TrimLeft_rune_append (e x : GoString) (h : isSpaceRune e = true) :
    TrimLeft (e ++ x) = TrimLeft x := by
  unfold TrimLeft
  match e, h with
  | [a], h => exact trimRunes_step1 _ _ _ a x (by simpa [isSpaceRune] using h)
  | [a, b], h =>
    have h2 : space2 a b = true := by simpa [isSpaceRune] using h
    exact trimRunes_step2 _ _ _ a b x (space2_not_ascii a b h2).1 h2
  | [a, b, c], h =>
    have h3 : space3 a b c = true := by simpa [isSpaceRune] using h
    obtain ⟨q1, q2, -, -⟩ := space3_not_shorter a b c h3
    exact trimRunes_step3 _ _ _ a b c x q1 q2 h3

theorem TrimLeft_spaces_append (pre : List GoString) (x : GoString)
    (h : ∀ e ∈ pre, isSpaceRune e = true) : TrimLeft (pre.flatten ++ x) = TrimLeft x := by
  induction pre with
  | nil => simp
  | cons e pre ih =>
    simp only [List.flatten_cons, List.append_assoc]
    rw [TrimLeft_rune_append e _ (h e (by simp))]
    exact ih (fun e he => h e (by simp [he]))

theorem trimRev_rune_append (e x : GoString) (h : isSpaceRune e = true) :
    trimRunes asciiSpace (fun a b => space2 b a) (fun a b c => space3 c b a) (e.reverse ++ x)
      = trimRunes asciiSpace (fun a b => space2 b a) (fun a b c => space3 c b a) x := by
  match e, h with
  | [a], h => exact trimRunes_step1 _ _ _ a x (by simpa [isSpaceRune] using h)
  | [a, b], h =>
    have h2 : space2 a b = true := by simpa [isSpaceRune] using h
    exact trimRunes_step2 _ _ _ b a x (space2_not_ascii a b h2).2 h2
  | [a, b, c], h =>
    have h3 : space3 a b c = true := by simpa [isSpaceRune] using h
    obtain ⟨-, -, q1, q2⟩ := space3_not_shorter a b c h3
    exact trimRunes_step3 _ _ _ c b a x q1 q2 h3

theorem TrimRight_append_spaces (post : List GoString) (x : GoString)
    (h : ∀ e ∈ post, isSpaceRune e = true) : TrimRight (x ++ post.flatten) = TrimRight x := by
  induction post using List.reverseRecOn with
  | nil => simp
  | append_singleton post e ih =>
    have he : isSpaceRune e = true := h e (by simp)
    have ih1 := ih (fun e1 he1 => h e1 (by simp [he1]))
    unfold TrimRight at *
    rw [← ih1]
    congr 1
    simp only [List.flatten_append, List.flatten_cons, List.flatten_nil, List.append_nil,
      List.reverse_append, List.append_assoc]
    exact trimRev_rune_append e _ he

theorem TrimSpace_surrounded (pre post : List GoString) (h : GoString)
    (hpre : ∀ e ∈ pre, isSpaceRune e = true) (hpost : ∀ e ∈ post, isSpaceRune e = true)
    (hh : IsObjectIdHex h = true) :
    TrimSpace (pre.flatten ++ h ++ post.flatten) = h := by
  have hfix := TrimSpace_of_IsObjectIdHex h hh
  obtain ⟨hl, d, hd⟩ := (IsObjectIdHex_iff h).1 hh
  have hhex := DecodeString_hex h d hd
  unfold TrimSpace at *
  rw [List.append_assoc, TrimLeft_spaces_append pre _ hpre]
  have hL : TrimLeft (h ++ post.flatten) = h ++ post.flatten := by
    unfold TrimLeft
    rw [trimRunes_eq_self_iff]
    match h, hl, hhex with
    | x :: r, _, hhex => exact startsWithRune_hex x _ (hhex x (by simp))
  have hL0 : TrimLeft h = h := by
    unfold TrimLeft
    rw [trimRunes_eq_self_iff]
    match h, hl, hhex with
    | x :: r, _, hhex => exact startsWithRune_hex x _ (hhex x (by simp))
  rw [hL, TrimRight_append_spaces post h hpost]
  rw [hL0] at hfix
  exact hfix

/-! ## Lemmas on the handlers and the `mgo` collection -/

theorem matchesSelector_id (oid : ObjectId) :
    matchesSelector [("_id", .objectId oid)] = hasId oid := by
  funext d
  simp [matchesSelector, hasId]

theorem removeFirst_eq_none (p : M → Bool) (l : List M) (h : ∀ d ∈ l, p d = false) :
    removeFirst p l = none := by
  induction l with
  | nil => rfl
  | cons d r ih =>
    have hd : p d = false := h d (by simp)
    simp [removeFirst, hd, ih (fun x hx => h x (by simp [hx]))]

theorem removeFirst_countP (p : M → Bool) (l l1 : List M) (h : removeFirst p l = some l1) :
    l1.countP p + 1 = l.countP p := by
  induction l generalizing l1 with
  | nil => simp [removeFirst] at h
  | cons d r ih =>
    by_cases hd : p d = true
    · simp [removeFirst, hd] at h
      subst h
      simp [List.countP_cons, hd]
    · simp only [removeFirst, hd] at h
      cases hr : removeFirst p r with
      | none => simp [hr] at h
      | some r1 =>
        simp [hr] at h
        subst h
        have := ih r1 hr
        simp [List.countP_cons, hd]
        omega

theorem removeFirst_of_countP_zero (p : M → Bool) (l : List M) (h : l.countP p = 0) :
    removeFirst p l = none := by
  apply removeFirst_eq_none
  intro d hd
  rw [List.countP_eq_zero] at h
  simpa using h d hd

theorem marshalM_id (oid : ObjectId) (h : oid.length = 12) :
    marshalM [("_id", .objectId oid)] = none := by
  simp [marshalM, h]

theorem mgoRemoveId_none (oid : ObjectId) (docs : List M) (h : oid.length = 12)
    (hr : removeFirst (hasId oid) docs = none) :
    mgoRemoveId oid docs = (some .notFound, docs) := by
  simp [mgoRemoveId, marshalM_id oid h, matchesSelector_id, hr]

theorem mgoRemoveId_some (oid : ObjectId) (docs docs1 : List M) (h : oid.length = 12)
    (hr : removeFirst (hasId oid) docs = some docs1) :
    mgoRemoveId oid docs = (none, docs1) := by
  simp [mgoRemoveId, marshalM_id oid h, matchesSelector_id, hr]

theorem deleteTodo_ok (id : GoString) (oid : ObjectId) (c : Collection σ) (s s1 : σ)
    (h : IsObjectIdHex (TrimSpace id) = true) (ho : ObjectIdHex (TrimSpace id) = some oid)
    (hr : c.RemoveId oid s = (none, s1)) :
    deleteTodo id c s =
      { writes := [⟨StatusAccepted,
                    .m [("message", .str (lit "todo deleted successfully"))]⟩],
        calls := [.RemoveId oid], db := s1 } := by
  simp [deleteTodo, h, ho, hr]

theorem deleteTodo_err (id : GoString) (oid : ObjectId) (c : Collection σ) (s s1 : σ)
    (e : GoError)
    (h : IsObjectIdHex (TrimSpace id) = true) (ho : ObjectIdHex (TrimSpace id) = some oid)
    (hr : c.RemoveId oid s = (some e, s1)) :
    deleteTodo id c s =
      { writes := [⟨StatusProcessing,
                    .m [("message", .str (lit "Failed to delete the todo")),
                        ("error", .err e)]⟩],
        calls := [.RemoveId oid], db := s1 } := by
  simp [deleteTodo, h, ho, hr]

theorem mgoInsert_empty_completed (tm : todoModel) (docs : List M) (h : tm.Completed = []) :
    ∃ e, mgoInsert tm docs = (some e, docs) := by
  have hm : ∃ e, marshalTodoModel tm = .error e := by
    unfold marshalTodoModel
    split
    · exact ⟨_, rfl⟩
    · split
      · exact ⟨_, rfl⟩
      · simp [marshalObjectId, h]
  obtain ⟨e, he⟩ := hm
  exact ⟨e, by simp [mgoInsert, he]⟩

theorem replaceFirst_some (p : M → Bool) (f : M → M) (l l1 : List M)
    (h : replaceFirst p f l = some l1) :
    ∃ pre old post, l = pre ++ old :: post ∧ p old = true ∧ (∀ d ∈ pre, p d = false) ∧
      l1 = pre ++ f old :: post := by
  induction l generalizing l1 with
  | nil => simp [replaceFirst] at h
  | cons d r ih =>
    by_cases hd : p d = true
    · simp [replaceFirst, hd] at h
      exact ⟨[], d, r, rfl, hd, by simp, by simp [← h]⟩
    · simp only [replaceFirst, hd] at h
      cases hr : replaceFirst p f r with
      | none => simp [hr] at h
      | some r1 =>
        simp [hr] at h
        obtain ⟨pre, old, post, h1, h2, h3, h4⟩ := ih r1 hr
        refine ⟨d :: pre, old, post, by simp [h1], h2, ?_, by simp [← h, h4]⟩
        intro x hx
        simp at hx
        rcases hx with hx | hx
        · subst hx; simpa using hd
        · exact h3 x hx

theorem replacement_updateDoc (oid : ObjectId) (old : M) (t : todo) (h : hasId oid old = true) :
    replacement old (updateDoc t) = ("_id", .objectId oid) :: updateDoc t := by
  have hl : old.lookup "_id" = some (.objectId oid) := by simpa [hasId] using h
  simp [replacement, hl, updateDoc]

theorem mgoUpdate_success (oid : ObjectId) (t : todo) (docs docs1 : List M)
    (h : mgoUpdate [("_id", .objectId oid)] (updateDoc t) docs = (none, docs1)) :
    replaceFirst (hasId oid) (fun d => replacement d (updateDoc t)) docs = some docs1 := by
  unfold mgoUpdate at h
  rw [matchesSelector_id] at h
  split at h
  · simp at h
  · split at h
    · simp at h
    · split at h
      · simp at h
      · split at h
        · simp at h
        · split at h
          · rename_i d1 hd1
            simp at h
            rw [hd1, h]
          · simp at h

/-- The guard on `bson.IsObjectIdHex` keeps `bson.ObjectIdHex` from panicking: neither
`deleteTodo` nor `updateTodo` ever panics. -/
theorem handlers_do_not_panic (param : GoString) (body : Except GoError todo)
    (c : Collection σ) (s : σ) :
    (deleteTodo param c s).panicked = false ∧ (updateTodo param body c s).panicked = false := by
  by_cases h : IsObjectIdHex (TrimSpace param) = true
  · obtain ⟨oid, ho, -⟩ := ObjectIdHex_of_IsObjectIdHex _ h
    constructor
    · rcases hR : c.RemoveId oid s with ⟨_ | e, s1⟩ <;> simp [deleteTodo, h, ho, hR]
    · match body with
      | .error e => simp [updateTodo, h]
      | .ok t =>
        by_cases ht : t.Title = []
        · simp [updateTodo, h, ht]
        · rcases hU : c.Update [("_id", .objectId oid)]
            [("title", .str t.Title), ("completed", .str t.Completed)] s with ⟨_ | e, s1⟩ <;>
          simp [updateTodo, h, ho, ht, hU]
  · simp [deleteTodo, updateTodo, h]

/-! ## The claims -/

/-- C1: a create request whose body decodes to a todo with an empty (or missing) title is
answered with status 400 and the message "Title is required"; no store call is made, the
store is left as it was, and a following list gives the same result as before. -/
theorem createTodo_empty_title_rejected (newId : ObjectId) (now : Time) (t : todo)
    (c : Collection σ) (s : σ) (h : t.Title = []) :
    (createTodo newId now (.ok t) c s).writes =
        [⟨400, .m [("message", .str (lit "Title is required"))]⟩] ∧
    (createTodo newId now (.ok t) c s).calls = [] ∧
    (createTodo newId now (.ok t) c s).db = s ∧
    fetchTodos c (createTodo newId now (.ok t) c s).db = fetchTodos c s := by
  simp [createTodo, h, StatusBadRequest]

/-- Witness for C1: a body with only `completed` set, on a store holding one document. -/
theorem createTodo_empty_title_rejected_witness :
    (⟨[], [], lit "true", 0⟩ : todo).Title = [] ∧
    (createTodo sampleOid 5 (.ok ⟨[], [], lit "true", 0⟩) mgoCollection [sampleDoc]).writes =
        [⟨400, .m [("message", .str (lit "Title is required"))]⟩] ∧
    (createTodo sampleOid 5 (.ok ⟨[], [], lit "true", 0⟩) mgoCollection [sampleDoc]).calls = [] ∧
    (createTodo sampleOid 5 (.ok ⟨[], [], lit "true", 0⟩) mgoCollection [sampleDoc]).db
      = [sampleDoc] ∧
    fetchTodos mgoCollection
      (createTodo sampleOid 5 (.ok ⟨[], [], lit "true", 0⟩) mgoCollection [sampleDoc]).db
      = fetchTodos mgoCollection [sampleDoc] :=
  ⟨rfl, createTodo_empty_title_rejected sampleOid 5 ⟨[], [], lit "true", 0⟩ mgoCollection
    [sampleDoc] rfl⟩

/-- Counterexample to C2 as stated: the path parameter " 0123456789abcdef01234567" (a
leading space) is not a 24-character hex string, yet `deleteTodo` calls the store, removes
the document and answers 202; and with a trailing line feed `updateTodo` calls the store
as well. -/
theorem untrimmed_invalid_id_reaches_store :
    IsObjectIdHex (lit " 0123456789abcdef01234567") = false ∧
    (deleteTodo (lit " 0123456789abcdef01234567") mgoCollection [sampleDoc]).calls
      = [.RemoveId sampleOid] ∧
    (deleteTodo (lit " 0123456789abcdef01234567") mgoCollection [sampleDoc]).writes
      = [⟨202, .m [("message", .str (lit "todo deleted successfully"))]⟩] ∧
    (deleteTodo (lit " 0123456789abcdef01234567") mgoCollection [sampleDoc]).db = [] ∧
    IsObjectIdHex (lit "0123456789abcdef01234567\n") = false ∧
    (updateTodo (lit "0123456789abcdef01234567\n") (.ok sampleBody)
      mgoCollection [sampleDoc]).calls
      = [.Update [("_id", .objectId sampleOid)]
          [("title", .str (lit "x")), ("completed", .str (lit "true"))]] := by
  decide

/-- C2, amended: when the id path parameter, after its leading and trailing white space is
stripped, is not a 24-character hexadecimal string, `deleteTodo` and `updateTodo` answer
with status 400 and make no store call, whatever the request body is. -/
theorem invalid_trimmed_id_rejected (param : GoString) (body : Except GoError todo)
    (c : Collection σ) (s : σ) (h : IsObjectIdHex (TrimSpace param) = false) :
    (deleteTodo param c s).writes
        = [⟨400, .m [("message", .str (lit "Invalid id format"))]⟩] ∧
    (deleteTodo param c s).calls = [] ∧
    (deleteTodo param c s).db = s ∧
    (updateTodo param body c s).writes
        = [⟨400, .m [("message", .str (lit "Invalid ID format"))]⟩] ∧
    (updateTodo param body c s).calls = [] ∧
    (updateTodo param body c s).db = s := by
  simp [deleteTodo, updateTodo, h, StatusBadRequest]

/-- Witness for the amended C2: the id "xyz" with a well-formed body. -/
theorem invalid_trimmed_id_rejected_witness :
    IsObjectIdHex (TrimSpace (lit "xyz")) = false ∧
    (deleteTodo (lit "xyz") mgoCollection [sampleDoc]).writes
        = [⟨400, .m [("message", .str (lit "Invalid id format"))]⟩] ∧
    (deleteTodo (lit "xyz") mgoCollection [sampleDoc]).calls = [] ∧
    (deleteTodo (lit "xyz") mgoCollection [sampleDoc]).db = [sampleDoc] ∧
    (updateTodo (lit "xyz") (.ok sampleBody) mgoCollection [sampleDoc]).writes
        = [⟨400, .m [("message", .str (lit "Invalid ID format"))]⟩] ∧
    (updateTodo (lit "xyz") (.ok sampleBody) mgoCollection [sampleDoc]).calls = [] ∧
    (updateTodo (lit "xyz") (.ok sampleBody) mgoCollection [sampleDoc]).db = [sampleDoc] :=
  ⟨by decide,
   invalid_trimmed_id_rejected (lit "xyz") (.ok sampleBody) mgoCollection [sampleDoc]
     (by decide)⟩

/-- C3, evaluated: whenever the collection reports a successful insert, `createTodo` answers
201 with the hex form of the new identifier; but on the `mgo` collection `createTodo` never
adds a document and never answers 201, because the `Completed` field it inserts is the empty
`bson.ObjectId`, which `bson.Marshal` refuses. From an empty store, creating "buy milk" is
answered with status 102 and "Failed to save Todo", and the following list returns no
item. -/
theorem createTodo_insert_always_fails (newId : ObjectId) (now : Time)
    (body : Except GoError todo) (docs : List M) :
    (∀ (τ : Type) (c : Collection τ) (s s1 : τ) (t : todo), t.Title ≠ [] →
      c.Insert { ID := newId, Title := t.Title, Completed := [], DateCreated := now } s
        = (none, s1) →
      (createTodo newId now (.ok t) c s).writes
        = [⟨201, .m [("message", .str (lit "Todo created successfully")),
                     ("todo_id", .str (Hex newId))]⟩] ∧
      (createTodo newId now (.ok t) c s).db = s1) ∧
    (createTodo newId now body mgoCollection docs).db = docs ∧
    (∀ w ∈ (createTodo newId now body mgoCollection docs).writes, w.status ≠ 201) ∧
    (∃ e, (createTodo newId now (.ok ⟨[], lit "buy milk", [], zeroTime⟩)
            mgoCollection []).writes
        = [⟨102, .m [("message", .str (lit "Failed to save Todo")), ("error", .err e)]⟩]) ∧
    (fetchTodos mgoCollection
        (createTodo newId now (.ok ⟨[], lit "buy milk", [], zeroTime⟩)
          mgoCollection []).db).writes
      = [⟨202, .m [("data", .todos [])]⟩] := by
  have key : ∀ (t : todo) (docs : List M), t.Title ≠ [] →
      ∃ e, createTodo newId now (.ok t) mgoCollection docs =
        { writes := [⟨StatusProcessing, .m [("message", .str (lit "Failed to save Todo")),
                                            ("error", .err e)]⟩],
          calls := [.Insert { ID := newId, Title := t.Title, Completed := [],
                              DateCreated := now }],
          db := docs } := by
    intro t docs ht
    obtain ⟨e, he⟩ := mgoInsert_empty_completed
      { ID := newId, Title := t.Title, Completed := [], DateCreated := now } docs rfl
    exact ⟨e, by simp [createTodo, ht, mgoCollection, he]⟩
  have hmilk : (⟨[], lit "buy milk", [], zeroTime⟩ : todo).Title ≠ [] := by decide
  refine ⟨?_, ?_, ?_, ?_, ?_⟩
  · intro τ c s s1 t ht hi
    simp [createTodo, ht, hi, StatusCreated]
  · match body with
    | .error e => simp [createTodo]
    | .ok t =>
      by_cases ht : t.Title = []
      · simp [createTodo, ht]
      · obtain ⟨e, he⟩ := key t docs ht
        rw [he]
  · match body with
    | .error e => simp [createTodo, StatusProcessing]
    | .ok t =>
      by_cases ht : t.Title = []
      · simp [createTodo, ht, StatusBadRequest]
      · obtain ⟨e, he⟩ := key t docs ht
        rw [he]; simp [StatusProcessing]
  · obtain ⟨e, he⟩ := key _ [] hmilk
    exact ⟨e, by rw [he]; rfl⟩
  · obtain ⟨e, he⟩ := key _ [] hmilk
    rw [he]; rfl

/-- Counterexample to C4 as stated: for a stored item whose creation time is the first
instant of year 10000, find-all succeeds, but `json.Marshal` refuses the time, `rnd.JSON`
returns the error after writing the header, and `fetchTodos` drops it: status 202 is sent
with no body, not the `data` envelope. -/
theorem fetchTodos_late_time_sends_no_body :
    mgoCollection.FindAll [lateDoc]
      = .ok [⟨sampleOid, lit "old", lit "false", 253402300800000⟩] ∧
    (fetchTodos mgoCollection [lateDoc]).writes.map (JSON utc encodesAll)
      = [⟨202, none⟩] :=
  ⟨rfl, by decide⟩

/-- C4, amended: when find-all succeeds with the items `todos`, `fetchTodos` calls
`rnd.JSON` with status 202 and the envelope with the single key `data`, holding one wire
item per stored item, in the same order, with the hex form of the id and the same title,
completed and creation time; when every creation time lies in the years 0..9999 (so for an
empty result too) this envelope is what is sent. When find-all fails with `err`, `rnd.JSON`
is called with an envelope of exactly the keys `message` and `error`, which is sent when the
error value can be encoded. The store is read and left as it was. -/
theorem fetchTodos_envelope (zone : Time → Int) (encodes : GoError → Bool)
    (c : Collection σ) (s : σ) :
    (∀ todos, c.FindAll s = .ok todos →
      (fetchTodos c s).writes = [⟨202, .m [("data", .todos (todos.map toTodo))]⟩] ∧
      (todos.map toTodo).length = todos.length ∧
      ((∀ m ∈ todos, timeMarshals zone m.DateCreated = true) →
        (fetchTodos c s).writes.map (JSON zone encodes)
          = [⟨202, some (.m [("data", .todos (todos.map toTodo))])⟩]) ∧
      (todos = [] →
        (fetchTodos c s).writes.map (JSON zone encodes)
          = [⟨202, some (.m [("data", .todos [])])⟩])) ∧
    (∀ err, c.FindAll s = .error err →
      (fetchTodos c s).writes =
        [⟨StatusProcessing, .m [("message", .str (lit "Failed to fetch todo")),
                                ("error", .err err)]⟩] ∧
      (encodes err = true →
        (fetchTodos c s).writes.map (JSON zone encodes) =
          [⟨StatusProcessing, some (.m [("message", .str (lit "Failed to fetch todo")),
                                        ("error", .err err)])⟩])) ∧
    (fetchTodos c s).calls = [.FindAll] ∧ (fetchTodos c s).db = s := by
  refine ⟨?_, ?_, ?_⟩
  · intro todos h
    have hw : (fetchTodos c s).writes = [⟨202, .m [("data", .todos (todos.map toTodo))]⟩] := by
      have hf := foldl_append_singleton toTodo todos []
      simp only [toTodo, List.nil_append] at hf
      simp only [fetchTodos, h, StatusAccepted, hf, toTodo]
    have hs : (∀ m ∈ todos, timeMarshals zone m.DateCreated = true) →
        (fetchTodos c s).writes.map (JSON zone encodes)
          = [⟨202, some (.m [("data", .todos (todos.map toTodo))])⟩] := by
      intro hr
      rw [hw]
      have hall : (todos.map toTodo).all (fun t => timeMarshals zone t.CreatedAt) = true := by
        simp only [List.all_eq_true, List.mem_map]
        rintro t ⟨m, hm, rfl⟩
        exact hr m hm
      simp [JSON, bodyMarshals, payloadMarshals, hall]
    refine ⟨hw, by simp, hs, ?_⟩
    intro h0
    subst h0
    simpa using hs (by simp)
  · intro err h
    have hw : (fetchTodos c s).writes =
        [⟨StatusProcessing, .m [("message", .str (lit "Failed to fetch todo")),
                                ("error", .err err)]⟩] := by
      simp [fetchTodos, h]
    refine ⟨hw, ?_⟩
    intro he
    rw [hw]
    simp [JSON, bodyMarshals, payloadMarshals, he]
  · cases h : c.FindAll s <;> simp [fetchTodos, h]

/-- Witness for C4: the listing of a store that holds one document, created at time 1000,
is sent with its body. -/
theorem fetchTodos_envelope_witness :
    mgoCollection.FindAll [sampleDoc]
      = .ok [⟨sampleOid, lit "old", lit "false", 1000⟩] ∧
    (∀ m ∈ [(⟨sampleOid, lit "old", lit "false", 1000⟩ : todoModel)],
      timeMarshals utc m.DateCreated = true) ∧
    (fetchTodos mgoCollection [sampleDoc]).writes.map (JSON utc encodesAll)
      = [⟨202, some (.m [("data", .todos
          ([⟨sampleOid, lit "old", lit "false", 1000⟩].map toTodo))])⟩] ∧
    toTodo ⟨sampleOid, lit "old", lit "false", 1000⟩
      = ⟨sampleHex, lit "old", lit "false", 1000⟩ :=
  ⟨rfl, by decide,
   (((fetchTodos_envelope utc encodesAll mgoCollection [sampleDoc]).1
      [⟨sampleOid, lit "old", lit "false", 1000⟩]) rfl).2.2.1 (by decide),
   by decide⟩

/-- C5: for a delete request with a syntactically valid id, `deleteTodo` makes exactly one
store call, the removal of the identifier decoded from the hex id; when the removal succeeds
the answer is status 202 with the message "todo deleted successfully"; when it fails with
`e` the answer is the envelope with `message` and `error`. On the `mgo` collection a store
without that identifier gives the error envelope (not found), and so does a second delete
of the same id when at most one document carries it. -/
theorem deleteTodo_valid_id (id : GoString) (c : Collection σ) (s : σ)
    (h : IsObjectIdHex id = true) :
    ∃ oid, ObjectIdHex id = some oid ∧
      (deleteTodo id c s).calls = [.RemoveId oid] ∧
      (deleteTodo id c s).db = (c.RemoveId oid s).2 ∧
      ((c.RemoveId oid s).1 = none →
        (deleteTodo id c s).writes
          = [⟨202, .m [("message", .str (lit "todo deleted successfully"))]⟩]) ∧
      (∀ e, (c.RemoveId oid s).1 = some e →
        (deleteTodo id c s).writes
          = [⟨StatusProcessing, .m [("message", .str (lit "Failed to delete the todo")),
                                    ("error", .err e)]⟩]) ∧
      (∀ docs : List M, (∀ d ∈ docs, hasId oid d = false) →
        (deleteTodo id mgoCollection docs).writes
          = [⟨StatusProcessing, .m [("message", .str (lit "Failed to delete the todo")),
                                    ("error", .err .notFound)]⟩]) ∧
      (∀ docs : List M, docs.countP (hasId oid) ≤ 1 →
        (deleteTodo id mgoCollection (deleteTodo id mgoCollection docs).db).writes
          = [⟨StatusProcessing, .m [("message", .str (lit "Failed to delete the todo")),
                                    ("error", .err .notFound)]⟩]) := by
  obtain ⟨oid, ho, hlen⟩ := ObjectIdHex_of_IsObjectIdHex id h
  have ht := TrimSpace_of_IsObjectIdHex id h
  have hv : IsObjectIdHex (TrimSpace id) = true := by rw [ht]; exact h
  have hov : ObjectIdHex (TrimSpace id) = some oid := by rw [ht]; exact ho
  have hnone : ∀ docs : List M, removeFirst (hasId oid) docs = none →
      deleteTodo id mgoCollection docs =
        { writes := [⟨StatusProcessing, .m [("message", .str (lit "Failed to delete the todo")),
                                    ("error", .err .notFound)]⟩],
          calls := [.RemoveId oid], db := docs } := by
    intro docs hr
    exact deleteTodo_err id oid _ _ _ _ hv hov (mgoRemoveId_none oid docs hlen hr)
  refine ⟨oid, ho, ?_, ?_, ?_, ?_, ?_, ?_⟩
  · rcases hR : c.RemoveId oid s with ⟨_ | e, s1⟩
    · rw [deleteTodo_ok id oid c s s1 hv hov hR]
    · rw [deleteTodo_err id oid c s s1 e hv hov hR]
  · rcases hR : c.RemoveId oid s with ⟨_ | e, s1⟩
    · rw [deleteTodo_ok id oid c s s1 hv hov hR]
    · rw [deleteTodo_err id oid c s s1 e hv hov hR]
  · intro hs
    rcases hR : c.RemoveId oid s with ⟨_ | e, s1⟩
    · rw [deleteTodo_ok id oid c s s1 hv hov hR]; rfl
    · rw [hR] at hs; simp at hs
  · intro e hs
    rcases hR : c.RemoveId oid s with ⟨_ | e1, s1⟩
    · rw [hR] at hs; simp at hs
    · rw [hR] at hs; simp at hs; subst hs
      rw [deleteTodo_err id oid c s s1 e1 hv hov hR]
  · intro docs hd
    rw [hnone docs (removeFirst_eq_none _ _ hd)]
  · intro docs hc
    cases hr : removeFirst (hasId oid) docs with
    | none => rw [hnone docs hr, hnone docs hr]
    | some docs1 =>
      have hcnt := removeFirst_countP _ _ _ hr
      rw [deleteTodo_ok id oid mgoCollection docs docs1 hv hov
        (mgoRemoveId_some oid docs docs1 hlen hr)]
      rw [hnone docs1 (removeFirst_of_countP_zero _ _ (by omega))]

/-- Witness for C5: deleting `sampleHex` from a store that holds that document, then a
second time. -/
theorem deleteTodo_valid_id_witness :
    IsObjectIdHex sampleHex = true ∧
    (∃ oid, ObjectIdHex sampleHex = some oid ∧
      (deleteTodo sampleHex mgoCollection [sampleDoc]).calls = [.RemoveId oid]) ∧
    (deleteTodo sampleHex mgoCollection [sampleDoc]).writes
      = [⟨202, .m [("message", .str (lit "todo deleted successfully"))]⟩] ∧
    (deleteTodo sampleHex mgoCollection [sampleDoc]).db = [] ∧
    (deleteTodo sampleHex mgoCollection
      (deleteTodo sampleHex mgoCollection [sampleDoc]).db).writes
      = [⟨102, .m [("message", .str (lit "Failed to delete the todo")),
                   ("error", .err .notFound)]⟩] :=
  ⟨by decide,
   (deleteTodo_valid_id sampleHex mgoCollection [sampleDoc] (by decide)).imp
     (fun _ hx => ⟨hx.1, hx.2.1⟩),
   by decide, by decide, by decide⟩

/-- C6, evaluated: on the success path of `updateTodo` (valid id, decoded body with a
non-empty title, store update without error) the handler makes the store call and writes
no response at all. -/
theorem updateTodo_success_writes_nothing (param : GoString) (t : todo)
    (c : Collection σ) (s : σ)
    (h : IsObjectIdHex (TrimSpace param) = true) (ht : t.Title ≠ []) :
    ∃ oid, ObjectIdHex (TrimSpace param) = some oid ∧
      ((c.Update [("_id", .objectId oid)] (updateDoc t) s).1 = none →
        (updateTodo param (.ok t) c s).writes = [] ∧
        (updateTodo param (.ok t) c s).calls
          = [.Update [("_id", .objectId oid)] (updateDoc t)]) := by
  obtain ⟨oid, ho, -⟩ := ObjectIdHex_of_IsObjectIdHex _ h
  refine ⟨oid, ho, ?_⟩
  intro hu
  rcases hU : c.Update [("_id", .objectId oid)] (updateDoc t) s with ⟨_ | e, s1⟩
  · simp only [updateDoc] at hU
    simp [updateTodo, h, ho, ht, hU, updateDoc]
  · rw [hU] at hu; simp at hu

/-- Witness for C6: updating the stored document `sampleDoc` writes no response. -/
theorem updateTodo_success_writes_nothing_witness :
    IsObjectIdHex (TrimSpace sampleHex) = true ∧ sampleBody.Title ≠ [] ∧
    (mgoCollection.Update [("_id", .objectId sampleOid)] (updateDoc sampleBody)
      [sampleDoc]).1 = none ∧
    (∃ oid, ObjectIdHex (TrimSpace sampleHex) = some oid ∧
      ((mgoCollection.Update [("_id", .objectId oid)] (updateDoc sampleBody)
          [sampleDoc]).1 = none →
        (updateTodo sampleHex (.ok sampleBody) mgoCollection [sampleDoc]).writes = [] ∧
        (updateTodo sampleHex (.ok sampleBody) mgoCollection [sampleDoc]).calls
          = [.Update [("_id", .objectId oid)] (updateDoc sampleBody)])) ∧
    (updateTodo sampleHex (.ok sampleBody) mgoCollection [sampleDoc]).writes = [] :=
  ⟨by decide, by decide, by decide,
   updateTodo_success_writes_nothing sampleHex sampleBody mgoCollection [sampleDoc]
     (by decide) (by decide),
   by decide⟩

/-- C7, evaluated on the `mgo` collection: after a successful `updateTodo` the matched
document has been replaced by the document with only `_id`, `title` and `completed`, so the
item read back has the submitted title, but an empty `Completed` (read from `successful`)
and the zero creation time; the documents before and after it are unchanged. -/
theorem updateTodo_replaces_document (param : GoString) (t : todo) (docs : List M)
    (h : IsObjectIdHex (TrimSpace param) = true) (ht : t.Title ≠ [])
    (hs : (updateTodo param (.ok t) mgoCollection docs).writes = []) :
    ∃ oid pre old post, ObjectIdHex (TrimSpace param) = some oid ∧
      docs = pre ++ old :: post ∧ hasId oid old = true ∧ (∀ d ∈ pre, hasId oid d = false) ∧
      (updateTodo param (.ok t) mgoCollection docs).db
        = pre ++ (("_id", .objectId oid) :: updateDoc t) :: post ∧
      unmarshalTodoModel (("_id", .objectId oid) :: updateDoc t)
        = { ID := oid, Title := t.Title, Completed := [], DateCreated := zeroTime } := by
  obtain ⟨oid, ho, -⟩ := ObjectIdHex_of_IsObjectIdHex _ h
  rcases hU : mgoUpdate [("_id", .objectId oid)] (updateDoc t) docs with ⟨_ | e, docs1⟩
  · obtain ⟨pre, old, post, h1, h2, h3, h4⟩ :=
      replaceFirst_some _ _ _ _ (mgoUpdate_success oid t docs docs1 hU)
    refine ⟨oid, pre, old, post, ho, h1, h2, h3, ?_, ?_⟩
    · simp only [updateDoc] at hU
      rw [replacement_updateDoc oid old t h2] at h4
      simp [updateTodo, h, ho, ht, mgoCollection, hU, h4, updateDoc]
    · simp [unmarshalTodoModel, updateDoc, setField, stringField]
  · simp only [updateDoc] at hU
    simp [updateTodo, h, ho, ht, mgoCollection, hU] at hs

/-- Witness for C7: the stored item with title "old", completed "false" and creation time
1000 is listed, after the update with title "x" and completed "true", with title "x", an
empty completed and the zero creation time. -/
theorem updateTodo_replaces_document_witness :
    IsObjectIdHex (TrimSpace sampleHex) = true ∧
    sampleBody.Title ≠ [] ∧
    (updateTodo sampleHex (.ok sampleBody) mgoCollection [sampleDoc]).writes = [] ∧
    (∃ oid pre old post, ObjectIdHex (TrimSpace sampleHex) = some oid ∧
      [sampleDoc] = pre ++ old :: post ∧ hasId oid old = true ∧
      (∀ d ∈ pre, hasId oid d = false) ∧
      (updateTodo sampleHex (.ok sampleBody) mgoCollection [sampleDoc]).db
        = pre ++ (("_id", .objectId oid) :: updateDoc sampleBody) :: post ∧
      unmarshalTodoModel (("_id", .objectId oid) :: updateDoc sampleBody)
        = { ID := oid, Title := sampleBody.Title, Completed := [],
            DateCreated := zeroTime }) ∧
    (fetchTodos mgoCollection [sampleDoc]).writes
      = [⟨202, .m [("data", .todos [⟨sampleHex, lit "old", lit "false", 1000⟩])]⟩] ∧
    (fetchTodos mgoCollection
      (updateTodo sampleHex (.ok sampleBody) mgoCollection [sampleDoc]).db).writes
      = [⟨202, .m [("data", .todos [⟨sampleHex, lit "x", [], zeroTime⟩])]⟩] :=
  ⟨by decide, by decide, by decide,
   updateTodo_replaces_document sampleHex sampleBody [sampleDoc]
     (by decide) (by decide) (by decide),
   by decide, by decide⟩

/-- C8, evaluated: when the body fails to decode with error `e`, `createTodo`, and
`updateTodo` with a valid id, answer with status 102 (`http.StatusProcessing`) and the raw
error as the body; the store is not called. -/
theorem decode_failure_status_processing (newId : ObjectId) (now : Time) (e : GoError)
    (param : GoString) (c : Collection σ) (s : σ)
    (h : IsObjectIdHex (TrimSpace param) = true) :
    (createTodo newId now (.error e) c s).writes = [⟨102, .raw e⟩] ∧
    (createTodo newId now (.error e) c s).calls = [] ∧
    (createTodo newId now (.error e) c s).db = s ∧
    (updateTodo param (.error e) c s).writes = [⟨102, .raw e⟩] ∧
    (updateTodo param (.error e) c s).calls = [] ∧
    (updateTodo param (.error e) c s).db = s := by
  simp [createTodo, updateTodo, h, StatusProcessing]

/-- Witness for C8: a body that is no JSON, with the id `sampleHex`. -/
theorem decode_failure_status_processing_witness :
    IsObjectIdHex (TrimSpace sampleHex) = true ∧
    (createTodo sampleOid 5 (.error (.decode "unexpected end of JSON input"))
      mgoCollection [sampleDoc]).writes
      = [⟨102, .raw (.decode "unexpected end of JSON input")⟩] ∧
    (updateTodo sampleHex (.error (.decode "unexpected end of JSON input"))
      mgoCollection [sampleDoc]).writes
      = [⟨102, .raw (.decode "unexpected end of JSON input")⟩] ∧
    (updateTodo sampleHex (.error (.decode "unexpected end of JSON input"))
      mgoCollection [sampleDoc]).calls = [] :=
  ⟨by decide,
   (decode_failure_status_processing sampleOid 5 (.decode "unexpected end of JSON input")
     sampleHex mgoCollection [sampleDoc] (by decide)).1,
   by decide, by decide⟩

/-- Counterexample to C9 as stated: the path parameter "0123456789abcdef01234567" followed
by a line feed is not a valid identifier, yet `updateTodo` does not answer with the 400
"Invalid ID format" envelope whatever the body is: with an undecodable body the response is
the decode-error response, and with the body `sampleBody` the store update is called and
the stored document replaced. -/
theorem updateTodo_untrimmed_id_passes_first_check :
    IsObjectIdHex (lit "0123456789abcdef01234567\n") = false ∧
    (updateTodo (lit "0123456789abcdef01234567\n") (.error (.decode "EOF"))
      mgoCollection [sampleDoc]).writes = [⟨102, .raw (.decode "EOF")⟩] ∧
    (updateTodo (lit "0123456789abcdef01234567\n") (.ok sampleBody)
      mgoCollection [sampleDoc]).writes = [] ∧
    (updateTodo (lit "0123456789abcdef01234567\n") (.ok sampleBody)
      mgoCollection [sampleDoc]).calls
      = [.Update [("_id", .objectId sampleOid)] (updateDoc sampleBody)] ∧
    (updateTodo (lit "0123456789abcdef01234567\n") (.ok sampleBody)
      mgoCollection [sampleDoc]).db
      = [("_id", .objectId sampleOid) :: updateDoc sampleBody] := by
  decide

/-- C9, amended: `updateTodo` checks (1) the identifier format of the id path parameter
after its leading and trailing white space is stripped, (2) that the body decoded, (3) that
the title is not empty, in this order, and the first failing check decides the response:
an id that is invalid after trimming gives the 400 "Invalid ID format" envelope whatever
the body; a valid id with an undecodable body gives the decode-error response; a valid id
with a decoded body of empty title gives the 400 "Title field is required" envelope; in
these three cases the store is not called and keeps its state. When all three checks pass,
and only then, the store update is applied, with the selector of the decoded identifier and
the submitted title and completed: the handler leaves the state that `Update` returns and
writes the error envelope when `Update` fails. -/
theorem updateTodo_validation_order (param : GoString) (body : Except GoError todo)
    (c : Collection σ) (s : σ) :
    (IsObjectIdHex (TrimSpace param) = false →
      updateTodo param body c s =
        { writes := [⟨400, .m [("message", .str (lit "Invalid ID format"))]⟩],
          calls := [], db := s }) ∧
    (IsObjectIdHex (TrimSpace param) = true → ∀ e, body = .error e →
      updateTodo param body c s =
        { writes := [⟨StatusProcessing, .raw e⟩], calls := [], db := s }) ∧
    (IsObjectIdHex (TrimSpace param) = true → ∀ t, body = .ok t → t.Title = [] →
      updateTodo param body c s =
        { writes := [⟨400, .m [("message", .str (lit "Title field is required"))]⟩],
          calls := [], db := s }) ∧
    (IsObjectIdHex (TrimSpace param) = true → ∀ t, body = .ok t → t.Title ≠ [] →
      ∃ oid, ObjectIdHex (TrimSpace param) = some oid ∧
        updateTodo param body c s =
          { writes := updateResponses (c.Update [("_id", .objectId oid)] (updateDoc t) s).1,
            calls := [.Update [("_id", .objectId oid)] (updateDoc t)],
            db := (c.Update [("_id", .objectId oid)] (updateDoc t) s).2 }) ∧
    ((updateTodo param body c s).calls ≠ [] ↔
      (IsObjectIdHex (TrimSpace param) = true ∧ ∃ t, body = .ok t ∧ t.Title ≠ [])) := by
  have h4 : IsObjectIdHex (TrimSpace param) = true → ∀ t, body = .ok t → t.Title ≠ [] →
      ∃ oid, ObjectIdHex (TrimSpace param) = some oid ∧
        updateTodo param body c s =
          { writes := updateResponses (c.Update [("_id", .objectId oid)] (updateDoc t) s).1,
            calls := [.Update [("_id", .objectId oid)] (updateDoc t)],
            db := (c.Update [("_id", .objectId oid)] (updateDoc t) s).2 } := by
    intro h t hb ht
    obtain ⟨oid, ho, -⟩ := ObjectIdHex_of_IsObjectIdHex _ h
    refine ⟨oid, ho, ?_⟩
    subst hb
    simp only [updateDoc]
    rcases hU : c.Update [("_id", .objectId oid)]
      [("title", .str t.Title), ("completed", .str t.Completed)] s with ⟨_ | e, s1⟩ <;>
    simp [updateTodo, h, ho, ht, hU, updateResponses]
  refine ⟨?_, ?_, ?_, h4, ?_⟩
  · intro h; simp [updateTodo, h, StatusBadRequest]
  · intro h e hb; subst hb; simp [updateTodo, h]
  · intro h t hb ht; subst hb; simp [updateTodo, h, ht, StatusBadRequest]
  · constructor
    · intro hc
      by_cases h : IsObjectIdHex (TrimSpace param) = true
      · refine ⟨h, ?_⟩
        match body, hc with
        | .error e, hc => simp [updateTodo, h] at hc
        | .ok t, hc =>
          refine ⟨t, rfl, ?_⟩
          intro ht
          simp [updateTodo, h, ht] at hc
      · simp [updateTodo, h] at hc
    · rintro ⟨h, t, hb, ht⟩
      obtain ⟨oid, -, heq⟩ := h4 h t hb ht
      rw [heq]; simp

/-- Witness for C9: with the valid id `sampleHex` and the body `sampleBody` all three
checks pass, the store update is applied and the stored document replaced; with the id
"xyz" the store is not called and keeps its document. -/
theorem updateTodo_validation_order_witness :
    IsObjectIdHex (TrimSpace sampleHex) = true ∧ sampleBody.Title ≠ [] ∧
    (∃ oid, ObjectIdHex (TrimSpace sampleHex) = some oid ∧
      updateTodo sampleHex (.ok sampleBody) mgoCollection [sampleDoc] =
        { writes := updateResponses
            (mgoCollection.Update [("_id", .objectId oid)] (updateDoc sampleBody)
              [sampleDoc]).1,
          calls := [.Update [("_id", .objectId oid)] (updateDoc sampleBody)],
          db := (mgoCollection.Update [("_id", .objectId oid)] (updateDoc sampleBody)
              [sampleDoc]).2 }) ∧
    (updateTodo sampleHex (.ok sampleBody) mgoCollection [sampleDoc]).db
      = [("_id", .objectId sampleOid) :: updateDoc sampleBody] ∧
    IsObjectIdHex (TrimSpace (lit "xyz")) = false ∧
    (updateTodo (lit "xyz") (.ok sampleBody) mgoCollection [sampleDoc]).calls = [] ∧
    (updateTodo (lit "xyz") (.ok sampleBody) mgoCollection [sampleDoc]).db = [sampleDoc] :=
  ⟨by decide, by decide,
   (updateTodo_validation_order sampleHex (.ok sampleBody) mgoCollection [sampleDoc]).2.2.2.1
     (by decide) sampleBody rfl (by decide),
   by decide, by decide, by decide, by decide⟩

/-- C10: `deleteTodo` and `updateTodo` check and use the id path parameter only after
`TrimSpace`. For every parameter the result is that for the trimmed parameter; when the
trimmed parameter is a valid hex identifier, `deleteTodo` applies `RemoveId` and
`updateTodo` (for a decoded body with a title) applies `Update` to the store with the
identifier decoded from the trimmed string, leaves the state the store returns and answers
by the store's result; when it is not, both answer 400 and leave the store alone. So an id
made of a valid 24-character hex identifier with white-space runes before and after it is
accepted, and the store is called with the identifier decoded from the hex part. -/
theorem handlers_use_trimmed_id (param : GoString) (body : Except GoError todo)
    (c : Collection σ) (s : σ) :
    deleteTodo param c s = deleteTodo (TrimSpace param) c s ∧
    updateTodo param body c s = updateTodo (TrimSpace param) body c s ∧
    (IsObjectIdHex (TrimSpace param) = true →
      ∃ oid, ObjectIdHex (TrimSpace param) = some oid ∧
        deleteTodo param c s =
          { writes := deleteResponses (c.RemoveId oid s).1,
            calls := [.RemoveId oid],
            db := (c.RemoveId oid s).2 } ∧
        ∀ t, t.Title ≠ [] →
          updateTodo param (.ok t) c s =
            { writes := updateResponses
                (c.Update [("_id", .objectId oid)] (updateDoc t) s).1,
              calls := [.Update [("_id", .objectId oid)] (updateDoc t)],
              db := (c.Update [("_id", .objectId oid)] (updateDoc t) s).2 }) ∧
    (IsObjectIdHex (TrimSpace param) = false →
      deleteTodo param c s =
        { writes := [⟨400, .m [("message", .str (lit "Invalid id format"))]⟩],
          calls := [], db := s } ∧
      updateTodo param body c s =
        { writes := [⟨400, .m [("message", .str (lit "Invalid ID format"))]⟩],
          calls := [], db := s }) ∧
    (∀ (pre post : List GoString) (h : GoString),
      (∀ e ∈ pre, isSpaceRune e = true) → (∀ e ∈ post, isSpaceRune e = true) →
      IsObjectIdHex h = true →
      TrimSpace (pre.flatten ++ h ++ post.flatten) = h ∧
      ∃ oid, ObjectIdHex h = some oid ∧
        deleteTodo (pre.flatten ++ h ++ post.flatten) c s =
          { writes := deleteResponses (c.RemoveId oid s).1,
            calls := [.RemoveId oid],
            db := (c.RemoveId oid s).2 } ∧
        ∀ t, t.Title ≠ [] →
          updateTodo (pre.flatten ++ h ++ post.flatten) (.ok t) c s =
            { writes := updateResponses
                (c.Update [("_id", .objectId oid)] (updateDoc t) s).1,
              calls := [.Update [("_id", .objectId oid)] (updateDoc t)],
              db := (c.Update [("_id", .objectId oid)] (updateDoc t) s).2 }) := by
  have key : ∀ x : GoString, IsObjectIdHex (TrimSpace x) = true →
      ∃ oid, ObjectIdHex (TrimSpace x) = some oid ∧
        deleteTodo x c s =
          { writes := deleteResponses (c.RemoveId oid s).1,
            calls := [.RemoveId oid],
            db := (c.RemoveId oid s).2 } ∧
        ∀ t, t.Title ≠ [] →
          updateTodo x (.ok t) c s =
            { writes := updateResponses
                (c.Update [("_id", .objectId oid)] (updateDoc t) s).1,
              calls := [.Update [("_id", .objectId oid)] (updateDoc t)],
              db := (c.Update [("_id", .objectId oid)] (updateDoc t) s).2 } := by
    intro x hx
    obtain ⟨oid, ho, -⟩ := ObjectIdHex_of_IsObjectIdHex _ hx
    refine ⟨oid, ho, ?_, ?_⟩
    · rcases hR : c.RemoveId oid s with ⟨_ | e, s1⟩ <;>
      simp [deleteTodo, hx, ho, hR, deleteResponses]
    · intro t ht
      simp only [updateDoc]
      rcases hU : c.Update [("_id", .objectId oid)]
        [("title", .str t.Title), ("completed", .str t.Completed)] s with ⟨_ | e, s1⟩ <;>
      simp [updateTodo, hx, ho, ht, hU, updateResponses]
  refine ⟨?_, ?_, key param, ?_, ?_⟩
  · simp only [deleteTodo, TrimSpace_idem]
  · simp only [updateTodo, TrimSpace_idem]
  · intro h
    simp [deleteTodo, updateTodo, h, StatusBadRequest]
  · intro pre post h hpre hpost hh
    have htrim := TrimSpace_surrounded pre post h hpre hpost hh
    refine ⟨htrim, ?_⟩
    have hk := key (pre.flatten ++ h ++ post.flatten) (by rw [htrim]; exact hh)
    rw [htrim] at hk
    exact hk

/-- Witness for C10: the id `sampleHex` between a space and a tab in front and a line feed
and a no-break space behind; the delete removes the stored document. -/
theorem handlers_use_trimmed_id_witness :
    (∀ e ∈ [[0x20], [0x09]], isSpaceRune e = true) ∧
    (∀ e ∈ [[0x0A], [0xC2, 0xA0]], isSpaceRune e = true) ∧
    IsObjectIdHex sampleHex = true ∧
    TrimSpace ([[0x20], [0x09]].flatten ++ sampleHex ++ [[0x0A], [0xC2, 0xA0]].flatten)
      = sampleHex ∧
    (deleteTodo ([[0x20], [0x09]].flatten ++ sampleHex ++ [[0x0A], [0xC2, 0xA0]].flatten)
      mgoCollection [sampleDoc]).calls = [.RemoveId sampleOid] ∧
    (deleteTodo ([[0x20], [0x09]].flatten ++ sampleHex ++ [[0x0A], [0xC2, 0xA0]].flatten)
      mgoCollection [sampleDoc]).db = [] ∧
    (deleteTodo ([[0x20], [0x09]].flatten ++ sampleHex ++ [[0x0A], [0xC2, 0xA0]].flatten)
      mgoCollection [sampleDoc]).writes
      = [⟨202, .m [("message", .str (lit "todo deleted successfully"))]⟩] ∧
    (updateTodo ([[0x20], [0x09]].flatten ++ sampleHex ++ [[0x0A], [0xC2, 0xA0]].flatten)
      (.ok sampleBody) mgoCollection [sampleDoc]).db
      = [("_id", .objectId sampleOid) :: updateDoc sampleBody] :=
  ⟨by decide, by decide, by decide,
   ((handlers_use_trimmed_id sampleHex (.ok sampleBody) mgoCollection [sampleDoc]).2.2.2.2
     [[0x20], [0x09]] [[0x0A], [0xC2, 0xA0]] sampleHex (by decide) (by decide) (by decide)).1,
   by decide, by decide, by decide, by decide⟩

end Todo
